import Mathlib

/-!
Verification of the `bw_assets` tileset and flingy decoders.

The Rust source (src/bw_assets/src/tileset/mod.rs and src/bw_assets/src/dat/flingy.rs)
is embedded shallowly: byte buffers are `List Nat` (each element a byte value),
the nom parser combinators used by the source are modelled as functions
`List Nat → Except NomError (List Nat × α)`, and the `Index` impls (which panic
on out-of-range indices in Rust) are modelled as `Option`-returning lookups.
-/

set_option maxRecDepth 10000

-- ---------------------------------------------------------------------------
-- Data model (from src/bw_assets/src/tileset/mod.rs)
-- ---------------------------------------------------------------------------

/-- A reference to a VF4 or VX4 element (struct CV5, a u16). -/
structure CV5 where
  val : Nat
deriving DecidableEq, Repr

/-- A list of CV5 groups (struct CV5s, Arc of Vec of Vec of CV5). -/
structure CV5s where
  groups : List (List CV5)
deriving DecidableEq, Repr

/-- Mini-tile image pointer (struct VX4, a u16): bit 0 is the horizontal-flip
flag, the high bits index into the VR4 table. -/
structure VX4 where
  val : Nat
deriving DecidableEq, Repr

/-- struct VX4s: Arc of Vec of Vec of VX4, blocks of 16 entries. -/
structure VX4s where
  blocks : List (List VX4)
deriving DecidableEq, Repr

/-- MiniTile flag word (struct VF4, a u16). -/
structure VF4 where
  val : Nat
deriving DecidableEq, Repr

/-- struct VF4s: Arc of Vec of Vec of VF4. -/
structure VF4s where
  blocks : List (List VF4)
deriving DecidableEq, Repr

/-- Index to WPE pixel color (struct VR4, a u8). -/
structure VR4 where
  val : Nat
deriving DecidableEq, Repr

/-- struct VR4s: Arc of Vec of Vec of VR4, blocks of 64 entries. -/
structure VR4s where
  blocks : List (List VR4)
deriving DecidableEq, Repr

/-- One palette entry (struct WPE, three u8 color channels). -/
structure WPE where
  r : Nat
  g : Nat
  b : Nat
deriving DecidableEq, Repr

/-- struct WPEs: Arc of Vec of WPE. -/
structure WPEs where
  entries : List WPE
deriving DecidableEq, Repr

-- VX4 accessors (tileset/mod.rs lines 115-123)

/-- `VX4::is_horizontally_flipped`: `self.0 & 1 == 1`. -/
def VX4.is_horizontally_flipped (v : VX4) : Bool := v.val &&& 1 == 1

/-- `VX4::index`: `(self.0 >> 1) as usize`. -/
def VX4.index (v : VX4) : Nat := v.val >>> 1

-- VF4 flag masks and predicates (tileset/mod.rs lines 214-247)

def VF4.WALKABLE : Nat := 0x0001
def VF4.MID : Nat := 0x0002
def VF4.HIGH : Nat := 0x0004
def VF4.LOW : Nat := 0x0004 ||| 0x0002
def VF4.BLOCKS_VIEW : Nat := 0x0008
def VF4.RAMP : Nat := 0x0010

/-- `VF4::is_walkable`: `self.0 & WALKABLE == WALKABLE`. -/
def VF4.is_walkable (v : VF4) : Bool := v.val &&& VF4.WALKABLE == VF4.WALKABLE

/-- `VF4::is_elevation_mid`. -/
def VF4.is_elevation_mid (v : VF4) : Bool := v.val &&& VF4.MID == VF4.MID

/-- `VF4::is_elevation_high`. -/
def VF4.is_elevation_high (v : VF4) : Bool := v.val &&& VF4.HIGH == VF4.HIGH

/-- `VF4::is_elevation_low`. -/
def VF4.is_elevation_low (v : VF4) : Bool := v.val &&& VF4.LOW == VF4.LOW

/-- `VF4::blocks_view`. -/
def VF4.blocks_view (v : VF4) : Bool := v.val &&& VF4.BLOCKS_VIEW == VF4.BLOCKS_VIEW

/-- `VF4::is_ramp`. -/
def VF4.is_ramp (v : VF4) : Bool := v.val &&& VF4.RAMP == VF4.RAMP

-- ---------------------------------------------------------------------------
-- nom combinators, as used by the source (complete-input variants)
-- ---------------------------------------------------------------------------

/-- nom error kinds relevant to this code: `Eof` (from the complete number
parsers, `take`, and `all_consuming`) and `Many0Kind` (the `many0`
no-progress guard). -/
inductive ErrKind where
  | Eof : ErrKind
  | Many0Kind : ErrKind
deriving DecidableEq, Repr

/-- nom's default error type: the input slice at the failure point plus an
error kind. -/
structure NomError where
  input : List Nat
  kind : ErrKind
deriving DecidableEq, Repr

/-- An `IResult`-returning parser over byte buffers: on success it returns the
remaining input and the parsed value. -/
def NomParser (α : Type) : Type := List Nat → Except NomError (List Nat × α)

/-- `nom::number::complete::le_u8`. -/
def le_u8 : NomParser Nat := fun b =>
  match b with
  | x :: rest => .ok (rest, x)
  | [] => .error ⟨[], .Eof⟩

/-- `nom::number::complete::le_u16` (little-endian). -/
def le_u16 : NomParser Nat := fun b =>
  match b with
  | x0 :: x1 :: rest => .ok (rest, x0 + 256 * x1)
  | _ => .error ⟨b, .Eof⟩

/-- `nom::number::complete::le_u32` (little-endian). -/
def le_u32 : NomParser Nat := fun b =>
  match b with
  | x0 :: x1 :: x2 :: x3 :: rest =>
      .ok (rest, x0 + 256 * x1 + 65536 * x2 + 16777216 * x3)
  | _ => .error ⟨b, .Eof⟩

/-- `nom::bytes::complete::take(n)`. -/
def takeB (n : Nat) : NomParser (List Nat) := fun b =>
  if n ≤ b.length then .ok (b.drop n, b.take n) else .error ⟨b, .Eof⟩

/-- `nom::combinator::map`. -/
def pmap {α β : Type} (p : NomParser α) (f : α → β) : NomParser β := fun b =>
  match p b with
  | .error e => .error e
  | .ok (rest, x) => .ok (rest, f x)

/-- `nom::sequence::preceded`. -/
def preceded {α β : Type} (p : NomParser α) (q : NomParser β) : NomParser β := fun b =>
  match p b with
  | .error e => .error e
  | .ok (rest, _) => q rest

/-- `nom::multi::count` (with the default error type, whose `append` discards
the added context, the inner error is propagated unchanged). -/
def countP {α : Type} (p : NomParser α) : Nat → NomParser (List α)
  | 0 => fun b => .ok (b, [])
  | n + 1 => fun b =>
    match p b with
    | .error e => .error e
    | .ok (rest, x) =>
      match countP p n rest with
      | .error e => .error e
      | .ok (rest2, xs) => .ok (rest2, x :: xs)

/-- The loop body of `nom::multi::many0`, with explicit fuel standing for the
loop: stop and return the accumulated list when the inner parser errors, and
guard against an inner parser that consumes nothing. -/
def many0F {α : Type} (p : NomParser α) : Nat → NomParser (List α)
  | 0 => fun b => .error ⟨b, .Many0Kind⟩
  | fuel + 1 => fun b =>
    match p b with
    | .error _ => .ok (b, [])
    | .ok (rest, x) =>
      if rest.length < b.length then
        match many0F p fuel rest with
        | .error e => .error e
        | .ok (rest2, xs) => .ok (rest2, x :: xs)
      else .error ⟨b, .Many0Kind⟩

/-- `nom::multi::many0`: the fuel `b.length + 1` is enough for any input since
every accepted iteration consumes at least one byte. -/
def many0 {α : Type} (p : NomParser α) : NomParser (List α) := fun b =>
  many0F p (b.length + 1) b

/-- `nom::combinator::all_consuming`: fails with an `Eof` error at the
residual input when the inner parser does not consume the whole buffer. -/
def all_consuming {α : Type} (p : NomParser α) : NomParser α := fun b =>
  match p b with
  | .error e => .error e
  | .ok (rest, x) => if rest.isEmpty then .ok (rest, x) else .error ⟨rest, .Eof⟩

-- ---------------------------------------------------------------------------
-- The five tileset decoders and the flingy decoder
-- ---------------------------------------------------------------------------

/-- `parse_cv5`: `map(le_u16, CV5)`. -/
def parse_cv5 : NomParser CV5 := pmap le_u16 CV5.mk

/-- `parse_cv5s`: groups of a skipped 20-byte header followed by 16
little-endian u16 references, whole buffer consumed (`all_consuming`,
`many0`, `preceded(take(20), count(parse_cv5, 16))`). -/
def parse_cv5s : NomParser CV5s :=
  all_consuming (pmap (many0 (preceded (takeB 20) (countP parse_cv5 16))) CV5s.mk)

/-- `parse_vx4`: `map(le_u16, VX4)`. -/
def parse_vx4 : NomParser VX4 := pmap le_u16 VX4.mk

/-- `parse_vx4s`: blocks of 16 little-endian u16 entries, whole buffer
consumed. -/
def parse_vx4s : NomParser VX4s :=
  all_consuming (pmap (many0 (countP parse_vx4 16)) VX4s.mk)

/-- `parse_vf4s`: blocks of 16 little-endian u16 flag words, whole buffer
consumed. -/
def parse_vf4s : NomParser VF4s :=
  all_consuming (pmap (many0 (countP (pmap le_u16 VF4.mk) 16)) VF4s.mk)

/-- `parse_vr4`: `map(le_u8, VR4)`. -/
def parse_vr4 : NomParser VR4 := pmap le_u8 VR4.mk

/-- `parse_vr4s`: blocks of 64 single-byte palette indices, whole buffer
consumed. -/
def parse_vr4s : NomParser VR4s :=
  all_consuming (pmap (many0 (countP parse_vr4 64)) VR4s.mk)

/-- `tuple((le_u8, le_u8, le_u8, le_u8))` as used by `parse_wpe`. -/
def tuple4u8 : NomParser (Nat × Nat × Nat × Nat) := fun b =>
  match le_u8 b with
  | .error e => .error e
  | .ok (r1, x0) =>
    match le_u8 r1 with
    | .error e => .error e
    | .ok (r2, x1) =>
      match le_u8 r2 with
      | .error e => .error e
      | .ok (r3, x2) =>
        match le_u8 r3 with
        | .error e => .error e
        | .ok (r4, x3) => .ok (r4, (x0, x1, x2, x3))

/-- `parse_wpe`: a 4-byte record whose first three bytes are R, G, B and whose
fourth byte is discarded. -/
def parse_wpe : NomParser WPE :=
  pmap tuple4u8 (fun t => WPE.mk t.1 t.2.1 t.2.2.1)

/-- `parse_wpes`: `all_consuming(many0(parse_wpe))`. -/
def parse_wpes : NomParser WPEs :=
  all_consuming (pmap (many0 parse_wpe) WPEs.mk)

/-- One flingy record (struct Flingy, src/bw_assets/src/dat/flingy.rs). -/
structure Flingy where
  sprite : Nat
  top_speed : Nat
  acceleration : Nat
  halt_distance : Nat
  turn_radius : Nat
  move_control : Nat
deriving DecidableEq, Repr

/-- struct FlingyDat: the decoded list of 209 flingy records. -/
structure FlingyDat where
  entries : List Flingy
deriving DecidableEq, Repr

/-- `BLOCK_SIZE` in flingy.rs: 209 records per column. -/
def FLINGY_BLOCK_SIZE : Nat := 209

/-- `parse_flingy_dat`: seven consecutive 209-entry columns (sprite u16,
top_speed u32, acceleration u16, halt_distance u32, turn_radius u8, one
discarded u8 column, move_control u8), then a whole-buffer-consumed check,
then record `i` is assembled from position `i` of each column. -/
def parse_flingy_dat : NomParser FlingyDat := fun b =>
  match countP le_u16 FLINGY_BLOCK_SIZE b with
  | .error e => .error e
  | .ok (r1, sprite_col) =>
    match countP le_u32 FLINGY_BLOCK_SIZE r1 with
    | .error e => .error e
    | .ok (r2, top_speed_col) =>
      match countP le_u16 FLINGY_BLOCK_SIZE r2 with
      | .error e => .error e
      | .ok (r3, acceleration_col) =>
        match countP le_u32 FLINGY_BLOCK_SIZE r3 with
        | .error e => .error e
        | .ok (r4, halt_distance_col) =>
          match countP le_u8 FLINGY_BLOCK_SIZE r4 with
          | .error e => .error e
          | .ok (r5, turn_radius_col) =>
            match countP le_u8 FLINGY_BLOCK_SIZE r5 with
            | .error e => .error e
            | .ok (r6, _unknown_col) =>
              match countP le_u8 FLINGY_BLOCK_SIZE r6 with
              | .error e => .error e
              | .ok (r7, move_control_col) =>
                match all_consuming (takeB 0) r7 with
                | .error e => .error e
                | .ok _ =>
                  .ok (r7, FlingyDat.mk ((List.range FLINGY_BLOCK_SIZE).map
                    (fun i => Flingy.mk (sprite_col.getD i 0)
                      (top_speed_col.getD i 0) (acceleration_col.getD i 0)
                      (halt_distance_col.getD i 0) (turn_radius_col.getD i 0)
                      (move_control_col.getD i 0))))

-- ---------------------------------------------------------------------------
-- Indexing and the resolution chain
-- ---------------------------------------------------------------------------

/-- Modelled from the spec: the MegaTile coordinate (§3), produced by the
external map-chunk consumer (`super::map::MegaTile`, not under src/): a group
index and a subtile index in [0,16). -/
structure MegaTile where
  group_index : Nat
  subtile_index : Nat
deriving DecidableEq, Repr

/-- `impl Index<&MegaTile> for CV5s` (tileset/mod.rs lines 58-64):
`self.0[megatile.group_index()][megatile.subtile_index()]`; the out-of-range
panic is modelled as `none`. -/
def cv5sIndex (t : CV5s) (m : MegaTile) : Option CV5 :=
  (t.groups.get? m.group_index).bind fun g => g.get? m.subtile_index

/-- `impl Index<&CV5> for VX4s` (lines 149-155): `self.0[cv5.0 as usize]`. -/
def vx4sIndex (t : VX4s) (c : CV5) : Option (List VX4) :=
  t.blocks.get? c.val

/-- `impl Index<&CV5> for VF4s` (lines 206-212): `self.0[cv5.0 as usize]`. -/
def vf4sIndex (t : VF4s) (c : CV5) : Option (List VF4) :=
  t.blocks.get? c.val

/-- `impl Index<&VX4> for VR4s` (lines 326-332): `self.0[vx4.index()]`. -/
def vr4sIndex (t : VR4s) (v : VX4) : Option (List VR4) :=
  t.blocks.get? (VX4.index v)

/-- `impl Index<&VR4> for WPEs` (lines 432-438): `self.0[vr4.0 as usize]`. -/
def wpesIndex (t : WPEs) (v : VR4) : Option WPE :=
  t.entries.get? v.val

/-- Modelled from the spec: the resolution-chain color path (§4.6), composing
the source's `Index` impls: megatile-reference lookup, image-reference block
and entry selection, pixel-block lookup at a requested in-block pixel
position, then palette lookup. (The optional horizontal-mirror transform is
applied by the consumer outside the chain, per §4.6 step 5.) -/
def color (cv5s : CV5s) (vx4s : VX4s) (vr4s : VR4s) (wpes : WPEs)
    (m : MegaTile) (pos : Nat) : Option (Nat × Nat × Nat) :=
  (cv5sIndex cv5s m).bind fun r =>
  (vx4sIndex vx4s r).bind fun blk =>
  (blk.get? m.subtile_index).bind fun e =>
  (vr4sIndex vr4s e).bind fun pixBlk =>
  (pixBlk.get? pos).bind fun pi =>
  (wpesIndex wpes pi).map fun w => (w.r, w.g, w.b)

/-- Modelled from the spec: the resolution-chain flag path (§4.6), composing
the source's `Index` impls: megatile-reference lookup, flag-block selection,
then entry selection by the subtile index. -/
def flags (cv5s : CV5s) (vf4s : VF4s) (m : MegaTile) : Option VF4 :=
  (cv5sIndex cv5s m).bind fun r =>
  (vf4sIndex vf4s r).bind fun blk =>
  blk.get? m.subtile_index

-- ---------------------------------------------------------------------------
-- Spec-side chunk readers (the expected decoder results)
-- ---------------------------------------------------------------------------

/-- Read `n` consecutive `k`-byte chunks of a buffer through `f`. -/
def chunksN {α : Type} (k : Nat) (f : List Nat → α) : Nat → List Nat → List α
  | 0, _ => []
  | n + 1, b => f (b.take k) :: chunksN k f n (b.drop k)

/-- The little-endian value of a 2-byte chunk. -/
def le16v (c : List Nat) : Nat := c.getD 0 0 + 256 * c.getD 1 0

/-- The little-endian value of a 4-byte chunk. -/
def le32v (c : List Nat) : Nat :=
  c.getD 0 0 + 256 * c.getD 1 0 + 65536 * c.getD 2 0 + 16777216 * c.getD 3 0

/-- The value of a 1-byte chunk. -/
def le8v (c : List Nat) : Nat := c.getD 0 0

/-- One megatile-reference group read from a 52-byte chunk: the 20-byte header
is skipped uninterpreted, then 16 little-endian u16 references. -/
def cv5GroupOf (c : List Nat) : List CV5 :=
  chunksN 2 (fun t => CV5.mk (le16v t)) 16 (c.drop 20)

/-- One image-reference block read from a 32-byte chunk: 16 little-endian u16
entries. -/
def vx4BlockOf (c : List Nat) : List VX4 :=
  chunksN 2 (fun t => VX4.mk (le16v t)) 16 c

/-- One flag block read from a 32-byte chunk: 16 little-endian u16 words. -/
def vf4BlockOf (c : List Nat) : List VF4 :=
  chunksN 2 (fun t => VF4.mk (le16v t)) 16 c

/-- One pixel-index block read from a 64-byte chunk: 64 single-byte palette
indices. -/
def vr4BlockOf (c : List Nat) : List VR4 :=
  chunksN 1 (fun t => VR4.mk (le8v t)) 64 c

/-- One palette entry read from a 4-byte chunk: R, G, B; the fourth byte is
not read. -/
def wpeOf (c : List Nat) : WPE := WPE.mk (c.getD 0 0) (c.getD 1 0) (c.getD 2 0)

/-- A parser that consumes exactly `k` bytes when at least `k` are available,
producing `f` of the consumed chunk, and errors otherwise. All per-record
parsers of this code base have this shape. -/
def ChunkSpec {α : Type} (p : NomParser α) (k : Nat) (f : List Nat → α) : Prop :=
  0 < k ∧ ∀ b : List Nat,
    (k ≤ b.length → p b = .ok (b.drop k, f (b.take k))) ∧
    (b.length < k → ∃ e, p b = .error e)

/-- The expected flingy records of a 3135-byte buffer: record `i` reads
position `i` of each of the seven 209-entry columns (the sixth column is
discarded). -/
def flingySpec (b : List Nat) : List Flingy :=
  (List.range FLINGY_BLOCK_SIZE).map fun i =>
    Flingy.mk (le16v ((b.drop (2 * i)).take 2))
      (le32v ((b.drop (418 + 4 * i)).take 4))
      (le16v ((b.drop (1254 + 2 * i)).take 2))
      (le32v ((b.drop (1672 + 4 * i)).take 4))
      (le8v ((b.drop (2508 + i)).take 1))
      (le8v ((b.drop (2926 + i)).take 1))

-- ---------------------------------------------------------------------------
-- Gamma conversion (tileset/mod.rs lines 385-387 and 409-413), over ℝ
-- ---------------------------------------------------------------------------

/-- The gamma correction `srgb(x) = (x as f32).powf(1.0 / 2.2)` applied to the
raw byte magnitude, idealized over the reals: `y` is the converted value of
the raw channel byte `x`. -/
def srgbSpec (x : Nat) (y : ℝ) : Prop := y = (x : ℝ) ^ ((1 : ℝ) / 2.2)

/-- `WPE::srgb`: the gamma conversion applied independently to each of the
three raw channel bytes, returning floating-point channel values. -/
def wpeSrgbSpec (w : WPE) (c : ℝ × ℝ × ℝ) : Prop :=
  srgbSpec w.r c.1 ∧ srgbSpec w.g c.2.1 ∧ srgbSpec w.b c.2.2

-- ---------------------------------------------------------------------------
-- Concrete tables for the end-to-end scenario (claim C1)
-- ---------------------------------------------------------------------------

/-- C1 scenario megatile-reference byte buffer: one group, 20 zero header
bytes, 16 references `[5, 0, ..., 0]` little-endian. -/
def cv5BufC1 : List Nat := List.replicate 20 0 ++ [5, 0] ++ List.replicate 30 0

/-- C1 scenario image-reference byte buffer: 6 blocks; block 5 entry 0 has
mirror flag false and pixel-block index 2 (entry value 4 = 2 <<< 1). -/
def vx4BufC1 : List Nat := List.replicate 160 0 ++ [4, 0] ++ List.replicate 30 0

/-- C1 scenario pixel-index byte buffer: 3 blocks; block 2 holds 64 copies of
the palette index 7. -/
def vr4BufC1 : List Nat := List.replicate 128 0 ++ List.replicate 64 7

/-- C1 scenario palette byte buffer: 8 records; entry 7 is (10, 20, 30). -/
def wpeBufC1 : List Nat := List.replicate 28 0 ++ [10, 20, 30, 0]

/-- The decoded C1 megatile-reference table. -/
def cv5sC1 : CV5s := CV5s.mk [CV5.mk 5 :: List.replicate 15 (CV5.mk 0)]

/-- The decoded C1 image-reference table. -/
def vx4sC1 : VX4s := VX4s.mk
  (List.replicate 5 (List.replicate 16 (VX4.mk 0)) ++
    [VX4.mk 4 :: List.replicate 15 (VX4.mk 0)])

/-- The decoded C1 pixel-index table. -/
def vr4sC1 : VR4s := VR4s.mk
  [List.replicate 64 (VR4.mk 0), List.replicate 64 (VR4.mk 0),
    List.replicate 64 (VR4.mk 7)]

/-- The decoded C1 palette table. -/
def wpesC1 : WPEs := WPEs.mk (List.replicate 7 (WPE.mk 0 0 0) ++ [WPE.mk 10 20 30])

deriving instance DecidableEq for Except

-- ---------------------------------------------------------------------------
-- Claim C3: flag predicate semantics
-- ---------------------------------------------------------------------------

/-- Claim C3: for every 16-bit flag word, each predicate holds exactly when the
word ANDed with the flag mask equals the mask (WALKABLE=0x0001, MID=0x0002,
HIGH=0x0004, LOW=0x0006, BLOCKS_VIEW=0x0008, RAMP=0x0010); the word 0x0001
makes `is_walkable` true and the five other predicates false, and 0x0006 makes
`is_elevation_low`, `is_elevation_mid` and `is_elevation_high` all true. -/
theorem C3_flag_predicates : ∀ w : Nat,
    (VF4.is_walkable ⟨w⟩ = true ↔ w &&& 0x0001 = 0x0001) ∧
    (VF4.is_elevation_mid ⟨w⟩ = true ↔ w &&& 0x0002 = 0x0002) ∧
    (VF4.is_elevation_high ⟨w⟩ = true ↔ w &&& 0x0004 = 0x0004) ∧
    (VF4.is_elevation_low ⟨w⟩ = true ↔ w &&& 0x0006 = 0x0006) ∧
    (VF4.blocks_view ⟨w⟩ = true ↔ w &&& 0x0008 = 0x0008) ∧
    (VF4.is_ramp ⟨w⟩ = true ↔ w &&& 0x0010 = 0x0010) ∧
    (VF4.is_walkable ⟨0x0001⟩ = true ∧ VF4.is_elevation_mid ⟨0x0001⟩ = false ∧
      VF4.is_elevation_high ⟨0x0001⟩ = false ∧ VF4.is_elevation_low ⟨0x0001⟩ = false ∧
      VF4.blocks_view ⟨0x0001⟩ = false ∧ VF4.is_ramp ⟨0x0001⟩ = false) ∧
    (VF4.is_elevation_low ⟨0x0006⟩ = true ∧ VF4.is_elevation_mid ⟨0x0006⟩ = true ∧
      VF4.is_elevation_high ⟨0x0006⟩ = true) := by
  intro w
  have hlow : VF4.LOW = 6 := by decide
  refine ⟨?_, ?_, ?_, ?_, ?_, ?_, by decide, by decide⟩ <;>
    simp [VF4.is_walkable, VF4.is_elevation_mid, VF4.is_elevation_high,
      VF4.is_elevation_low, VF4.blocks_view, VF4.is_ramp, hlow,
      VF4.WALKABLE, VF4.MID, VF4.HIGH, VF4.BLOCKS_VIEW, VF4.RAMP, beq_iff_eq]

-- ---------------------------------------------------------------------------
-- Claim C7: VX4 accessor semantics
-- ---------------------------------------------------------------------------

/-- Claim C7: for every 16-bit image-reference entry value `v`,
`is_horizontally_flipped` is true exactly when bit 0 of `v` is set, and
`index` (the pixel-block index) is `v` right-shifted by 1, i.e. `v / 2`,
which fits in 15 bits for any 16-bit `v`. -/
theorem C7_vx4_accessors : ∀ v : Nat,
    (VX4.is_horizontally_flipped ⟨v⟩ = true ↔ Nat.testBit v 0 = true) ∧
    VX4.index ⟨v⟩ = v / 2 ∧
    (v < 65536 → VX4.index ⟨v⟩ < 32768) := by
  intro v
  have hidx : VX4.index ⟨v⟩ = v / 2 := by
    simp [VX4.index, Nat.shiftRight_eq_div_pow]
  refine ⟨?_, hidx, ?_⟩
  · simp [VX4.is_horizontally_flipped, Nat.testBit_zero, Nat.and_one_is_mod,
      beq_iff_eq]
  · intro hv
    rw [hidx]
    omega

/-- Witness for C7 at the concrete entry value 65535. -/
theorem C7_vx4_accessors_witness : VX4.index ⟨65535⟩ < 32768 :=
  (C7_vx4_accessors 65535).2.2 (by decide)

-- ---------------------------------------------------------------------------
-- Chunk-parser machinery
-- ---------------------------------------------------------------------------

theorem chunksN_length {α : Type} (k : Nat) (f : List Nat → α) :
    ∀ (n : Nat) (b : List Nat), (chunksN k f n b).length = n := by
  intro n
  induction n with
  | zero => intro b; simp [chunksN]
  | succ n ih => intro b; simp [chunksN, ih]

theorem chunksN_get? {α : Type} (k : Nat) (f : List Nat → α) :
    ∀ (n : Nat) (b : List Nat) (i : Nat),
      (chunksN k f n b).get? i =
        if i < n then some (f ((b.drop (k * i)).take k)) else none := by
  intro n
  induction n with
  | zero => intro b i; simp [chunksN]
  | succ n ih =>
    intro b i
    match i with
    | 0 => simp [chunksN]
    | j + 1 =>
      have h := ih (b.drop k) j
      simp only [chunksN, List.get?_cons_succ, h, List.drop_drop]
      have harith : k + k * j = k * (j + 1) := by ring
      rw [harith]
      by_cases hj : j < n
      · simp [hj, Nat.succ_lt_succ hj]
      · have : ¬ (j + 1 < n + 1) := by omega
        simp [hj, this]

theorem chunk_le_u8 : ChunkSpec le_u8 1 le8v := by
  refine ⟨Nat.one_pos, fun b => ⟨?_, ?_⟩⟩
  · intro h
    match b with
    | x :: rest => simp [le_u8, le8v]
    | [] => simp at h
  · intro h
    match b with
    | [] => exact ⟨_, rfl⟩
    | x :: rest => simp at h

theorem chunk_le_u16 : ChunkSpec le_u16 2 le16v := by
  refine ⟨by omega, fun b => ⟨?_, ?_⟩⟩
  · intro h
    match b with
    | x0 :: x1 :: rest => simp [le_u16, le16v]
    | [] => simp at h
    | [x] => simp at h
  · intro h
    match b with
    | [] => exact ⟨_, rfl⟩
    | [x] => exact ⟨_, rfl⟩
    | x0 :: x1 :: rest => simp at h; omega

theorem chunk_le_u32 : ChunkSpec le_u32 4 le32v := by
  refine ⟨by omega, fun b => ⟨?_, ?_⟩⟩
  · intro h
    match b with
    | x0 :: x1 :: x2 :: x3 :: rest => simp [le_u32, le32v]
    | [] => simp at h
    | [x] => simp at h
    | [x, y] => simp at h
    | [x, y, z] => simp at h
  · intro h
    match b with
    | [] => exact ⟨_, rfl⟩
    | [x] => exact ⟨_, rfl⟩
    | [x, y] => exact ⟨_, rfl⟩
    | [x, y, z] => exact ⟨_, rfl⟩
    | x0 :: x1 :: x2 :: x3 :: rest => simp at h; omega

theorem chunk_parse_wpe : ChunkSpec parse_wpe 4 wpeOf := by
  refine ⟨by omega, fun b => ⟨?_, ?_⟩⟩
  · intro h
    match b with
    | x0 :: x1 :: x2 :: x3 :: rest => simp [parse_wpe, pmap, tuple4u8, le_u8, wpeOf]
    | [] => simp at h
    | [x] => simp at h
    | [x, y] => simp at h
    | [x, y, z] => simp at h
  · intro h
    match b with
    | [] => exact ⟨_, rfl⟩
    | [x] => exact ⟨_, rfl⟩
    | [x, y] => exact ⟨_, rfl⟩
    | [x, y, z] => exact ⟨_, rfl⟩
    | x0 :: x1 :: x2 :: x3 :: rest => simp at h; omega

theorem chunk_pmap {α β : Type} {p : NomParser α} {k : Nat} {f : List Nat → α}
    (g : α → β) (hp : ChunkSpec p k f) :
    ChunkSpec (pmap p g) k (fun c => g (f c)) := by
  obtain ⟨hk, hspec⟩ := hp
  refine ⟨hk, fun b => ⟨?_, ?_⟩⟩
  · intro h
    simp [pmap, (hspec b).1 h]
  · intro h
    obtain ⟨e, he⟩ := (hspec b).2 h
    exact ⟨e, by simp [pmap, he]⟩

theorem chunk_preceded_take {α : Type} {q : NomParser α} {k : Nat}
    {f : List Nat → α} (m : Nat) (hq : ChunkSpec q k f) :
    ChunkSpec (preceded (takeB m) q) (m + k) (fun c => f (c.drop m)) := by
  obtain ⟨hk, hspec⟩ := hq
  refine ⟨by omega, fun b => ⟨?_, ?_⟩⟩
  · intro h
    have hm : m ≤ b.length := by omega
    have ht : takeB m b = .ok (b.drop m, b.take m) := by simp [takeB, hm]
    have hq1 := (hspec (b.drop m)).1 (by simp [List.length_drop]; omega)
    simp only [preceded, ht, hq1, List.drop_drop]
    have h1 : m + k = m + k := rfl
    have h2 : (b.take (m + k)).drop m = (b.drop m).take k := by
      rw [List.drop_take]
      congr 1
      omega
    rw [h2]
  · intro h
    by_cases hm : m ≤ b.length
    · have ht : takeB m b = .ok (b.drop m, b.take m) := by simp [takeB, hm]
      obtain ⟨e, he⟩ := (hspec (b.drop m)).2 (by simp [List.length_drop]; omega)
      exact ⟨e, by simp [preceded, ht, he]⟩
    · refine ⟨⟨b, .Eof⟩, ?_⟩
      simp [preceded, takeB, hm]

theorem countP_ok {α : Type} {p : NomParser α} {k : Nat} {f : List Nat → α}
    (hp : ChunkSpec p k f) :
    ∀ (n : Nat) (b : List Nat), k * n ≤ b.length →
      countP p n b = .ok (b.drop (k * n), chunksN k f n b) := by
  intro n
  induction n with
  | zero => intro b _; simp [countP, chunksN]
  | succ n ih =>
    intro b h
    rw [Nat.mul_succ] at h
    have hk := hp.1
    have hkb : k ≤ b.length := by omega
    have h1 := (hp.2 b).1 hkb
    have hdl : (b.drop k).length = b.length - k := List.length_drop ..
    have h2 := ih (b.drop k) (by omega)
    simp only [countP, h1, h2, chunksN, List.drop_drop]
    have : k + k * n = k * (n + 1) := by ring
    rw [this]

theorem countP_err {α : Type} {p : NomParser α} {k : Nat} {f : List Nat → α}
    (hp : ChunkSpec p k f) :
    ∀ (n : Nat) (b : List Nat), b.length < k * n →
      ∃ e, countP p n b = .error e := by
  intro n
  induction n with
  | zero => intro b h; simp at h
  | succ n ih =>
    intro b h
    rw [Nat.mul_succ] at h
    by_cases hkb : k ≤ b.length
    · have h1 := (hp.2 b).1 hkb
      have hdl : (b.drop k).length = b.length - k := List.length_drop ..
      obtain ⟨e, he⟩ := ih (b.drop k) (by omega)
      exact ⟨e, by simp [countP, h1, he]⟩
    · obtain ⟨e, he⟩ := (hp.2 b).2 (by omega)
      exact ⟨e, by simp [countP, he]⟩

theorem chunksN_take {α : Type} (k : Nat) (f : List Nat → α) :
    ∀ (n : Nat) (b : List Nat), chunksN k f n (b.take (k * n)) = chunksN k f n b := by
  intro n
  induction n with
  | zero => intro b; simp [chunksN]
  | succ n ih =>
    intro b
    have h1 : (b.take (k * (n + 1))).take k = b.take k := by
      rw [List.take_take]
      congr 1
      have : k ≤ k * (n + 1) := by nlinarith [Nat.le_mul_of_pos_right k (Nat.succ_pos n)]
      omega
    have h2 : (b.take (k * (n + 1))).drop k = (b.drop k).take (k * n) := by
      rw [List.drop_take]
      congr 1
      rw [Nat.mul_succ]
      omega
    simp only [chunksN, h1, h2, ih]

theorem chunk_countP {α : Type} {p : NomParser α} {k : Nat} {f : List Nat → α}
    (hp : ChunkSpec p k f) (n : Nat) (hn : 0 < n) :
    ChunkSpec (countP p n) (k * n) (chunksN k f n) :=
  ⟨Nat.mul_pos hp.1 hn, fun b =>
    ⟨fun h => by rw [countP_ok hp n b h, chunksN_take],
     fun h => countP_err hp n b h⟩⟩

theorem many0F_chunk {α : Type} {p : NomParser α} {k : Nat} {f : List Nat → α}
    (hp : ChunkSpec p k f) :
    ∀ (fuel : Nat) (b : List Nat), b.length < fuel →
      many0F p fuel b =
        .ok (b.drop (k * (b.length / k)), chunksN k f (b.length / k) b) := by
  intro fuel
  induction fuel with
  | zero => intro b h; omega
  | succ fuel ih =>
    intro b h
    have hk := hp.1
    by_cases hkb : k ≤ b.length
    · have h1 := (hp.2 b).1 hkb
      have hdl : (b.drop k).length = b.length - k := List.length_drop ..
      have hprog : (b.drop k).length < b.length := by omega
      have h2 := ih (b.drop k) (by omega)
      have hdiv : b.length / k = (b.length - k) / k + 1 := by
        rw [← Nat.add_div_right _ hk, Nat.sub_add_cancel hkb]
      simp only [many0F, h1, hprog, if_pos, h2, hdl]
      rw [hdiv]
      simp only [chunksN, List.drop_drop]
      have harith : k + k * ((b.length - k) / k) = k * ((b.length - k) / k + 1) := by
        ring
      rw [harith]
      rw [if_pos (show b.length - k < b.length by omega)]
    · obtain ⟨e, he⟩ := (hp.2 b).2 (by omega)
      have h0 : b.length / k = 0 := Nat.div_eq_of_lt (by omega)
      simp [many0F, he, h0, chunksN]

theorem decoder_chunk {α β : Type} {p : NomParser α} {k : Nat}
    {f : List Nat → α} (hp : ChunkSpec p k f) (wrap : List α → β) (b : List Nat) :
    all_consuming (pmap (many0 p) wrap) b =
      if b.length % k = 0 then .ok ([], wrap (chunksN k f (b.length / k) b))
      else .error ⟨b.drop (k * (b.length / k)), .Eof⟩ := by
  have hk := hp.1
  have hm := many0F_chunk hp (b.length + 1) b (by omega)
  have hrest : (b.drop (k * (b.length / k))).length = b.length % k := by
    rw [List.length_drop]
    have := Nat.div_add_mod b.length k
    omega
  by_cases h0 : b.length % k = 0
  · have hnil : b.drop (k * (b.length / k)) = [] :=
      List.length_eq_zero.mp (by omega)
    simp [all_consuming, pmap, many0, hm, hnil, h0]
  · have hne : b.drop (k * (b.length / k)) ≠ [] := by
      intro hc
      rw [hc] at hrest
      simp at hrest
      omega
    simp [all_consuming, pmap, many0, hm, h0, List.isEmpty_iff, hne]

-- ---------------------------------------------------------------------------
-- Per-decoder characterizations
-- ---------------------------------------------------------------------------

theorem chunk_cv5_group :
    ChunkSpec (preceded (takeB 20) (countP parse_cv5 16)) 52 cv5GroupOf :=
  chunk_preceded_take 20 (chunk_countP (chunk_pmap CV5.mk chunk_le_u16) 16 (by omega))

theorem chunk_vx4_block : ChunkSpec (countP parse_vx4 16) 32 vx4BlockOf :=
  chunk_countP (chunk_pmap VX4.mk chunk_le_u16) 16 (by omega)

theorem chunk_vf4_block : ChunkSpec (countP (pmap le_u16 VF4.mk) 16) 32 vf4BlockOf :=
  chunk_countP (chunk_pmap VF4.mk chunk_le_u16) 16 (by omega)

theorem chunk_vr4_block : ChunkSpec (countP parse_vr4 64) 64 vr4BlockOf :=
  chunk_countP (chunk_pmap VR4.mk chunk_le_u8) 64 (by omega)

theorem parse_cv5s_eq (b : List Nat) :
    parse_cv5s b =
      if b.length % 52 = 0 then
        .ok ([], CV5s.mk (chunksN 52 cv5GroupOf (b.length / 52) b))
      else .error ⟨b.drop (52 * (b.length / 52)), .Eof⟩ :=
  decoder_chunk chunk_cv5_group CV5s.mk b

theorem parse_vx4s_eq (b : List Nat) :
    parse_vx4s b =
      if b.length % 32 = 0 then
        .ok ([], VX4s.mk (chunksN 32 vx4BlockOf (b.length / 32) b))
      else .error ⟨b.drop (32 * (b.length / 32)), .Eof⟩ :=
  decoder_chunk chunk_vx4_block VX4s.mk b

theorem parse_vf4s_eq (b : List Nat) :
    parse_vf4s b =
      if b.length % 32 = 0 then
        .ok ([], VF4s.mk (chunksN 32 vf4BlockOf (b.length / 32) b))
      else .error ⟨b.drop (32 * (b.length / 32)), .Eof⟩ :=
  decoder_chunk chunk_vf4_block VF4s.mk b

theorem parse_vr4s_eq (b : List Nat) :
    parse_vr4s b =
      if b.length % 64 = 0 then
        .ok ([], VR4s.mk (chunksN 64 vr4BlockOf (b.length / 64) b))
      else .error ⟨b.drop (64 * (b.length / 64)), .Eof⟩ :=
  decoder_chunk chunk_vr4_block VR4s.mk b

theorem parse_wpes_eq (b : List Nat) :
    parse_wpes b =
      if b.length % 4 = 0 then
        .ok ([], WPEs.mk (chunksN 4 wpeOf (b.length / 4) b))
      else .error ⟨b.drop (4 * (b.length / 4)), .Eof⟩ :=
  decoder_chunk chunk_parse_wpe WPEs.mk b

-- ---------------------------------------------------------------------------
-- Claim C6: the megatile-reference decoder
-- ---------------------------------------------------------------------------

/-- Claim C6: the megatile-reference decoder succeeds exactly on buffers whose
length is a multiple of 52, producing length/52 groups; each group skips a
20-byte header uninterpreted and reads exactly 16 little-endian 2-byte
references (`cv5GroupOf`); any incomplete final group or residual bytes make
it fail. -/
theorem C6_megatile_reference_decoder : ∀ b : List Nat,
    ((∃ v, parse_cv5s b = .ok v) ↔ b.length % 52 = 0) ∧
    (b.length % 52 = 0 →
      parse_cv5s b = .ok ([], CV5s.mk (chunksN 52 cv5GroupOf (b.length / 52) b))) ∧
    (∀ rest t, parse_cv5s b = .ok (rest, t) → t.groups.length = b.length / 52) := by
  intro b
  have h := parse_cv5s_eq b
  by_cases h0 : b.length % 52 = 0
  · refine ⟨by simp [h, h0], fun _ => by simp [h, h0], ?_⟩
    intro rest t ht
    rw [h, if_pos h0] at ht
    simp only [Except.ok.injEq, Prod.mk.injEq] at ht
    rw [← ht.2]
    exact chunksN_length 52 cv5GroupOf (b.length / 52) b
  · refine ⟨by simp [h, h0], fun hc => absurd hc h0, ?_⟩
    intro rest t ht
    rw [h, if_neg h0] at ht
    exact absurd ht (by simp)

/-- Witness for C6: a single all-zero 52-byte group decodes to one group of 16
zero references. -/
theorem C6_witness :
    parse_cv5s (List.replicate 52 0) =
      .ok ([], CV5s.mk (chunksN 52 cv5GroupOf ((List.replicate 52 (0:Nat)).length / 52)
        (List.replicate 52 0))) :=
  (C6_megatile_reference_decoder (List.replicate 52 0)).2.1 (by decide)

-- ---------------------------------------------------------------------------
-- Claim C5 (amended): non-multiple buffer lengths always fail, with a single
-- error kind
-- ---------------------------------------------------------------------------

/-- Claim C5 as amended: for every byte buffer whose length is not an exact
multiple of the format's record/group size, every tileset decoder fails and
returns no partial table; both a buffer that ends mid-record and a buffer
with extra trailing bytes fail with the same error (the whole-buffer-consumed
check's `Eof` error at the residual bytes) — the two failure cases are not
distinguished by error kind. -/
theorem C5_nonmultiple_fails : ∀ b : List Nat,
    (b.length % 4 ≠ 0 →
      parse_wpes b = .error ⟨b.drop (4 * (b.length / 4)), .Eof⟩) ∧
    (b.length % 64 ≠ 0 →
      parse_vr4s b = .error ⟨b.drop (64 * (b.length / 64)), .Eof⟩) ∧
    (b.length % 32 ≠ 0 →
      parse_vf4s b = .error ⟨b.drop (32 * (b.length / 32)), .Eof⟩) ∧
    (b.length % 32 ≠ 0 →
      parse_vx4s b = .error ⟨b.drop (32 * (b.length / 32)), .Eof⟩) ∧
    (b.length % 52 ≠ 0 →
      parse_cv5s b = .error ⟨b.drop (52 * (b.length / 52)), .Eof⟩) := by
  intro b
  refine ⟨fun h => ?_, fun h => ?_, fun h => ?_, fun h => ?_, fun h => ?_⟩
  · rw [parse_wpes_eq b, if_neg h]
  · rw [parse_vr4s_eq b, if_neg h]
  · rw [parse_vf4s_eq b, if_neg h]
  · rw [parse_vx4s_eq b, if_neg h]
  · rw [parse_cv5s_eq b, if_neg h]

/-- Counterexample for C5 as stated: a pixel-index buffer one byte short of a
complete 64-byte block and a buffer one byte past a complete block both fail
with the SAME error kind (`Eof`), so the two failure kinds are not
distinguished. -/
theorem C5_counterexample :
    parse_vr4s (List.replicate 63 0) =
      .error ⟨List.replicate 63 0, ErrKind.Eof⟩ ∧
    parse_vr4s (List.replicate 65 0) =
      .error ⟨List.replicate 1 0, ErrKind.Eof⟩ := by
  constructor
  · decide
  · decide

/-- Witness for the amended C5 at a concrete 5-byte palette buffer. -/
theorem C5_nonmultiple_fails_witness :
    parse_wpes (List.replicate 5 0) =
      .error ⟨(List.replicate 5 (0:Nat)).drop
        (4 * ((List.replicate 5 (0:Nat)).length / 4)), ErrKind.Eof⟩ :=
  (C5_nonmultiple_fails (List.replicate 5 0)).1 (by decide)

-- ---------------------------------------------------------------------------
-- Claim C9: the empty buffer decodes to an empty table
-- ---------------------------------------------------------------------------

/-- Claim C9: each of the five tileset decoders, applied to the empty byte
buffer, succeeds with a table of zero elements. -/
theorem C9_empty_buffer_decodes :
    parse_wpes [] = .ok ([], WPEs.mk []) ∧
    parse_vr4s [] = .ok ([], VR4s.mk []) ∧
    parse_vf4s [] = .ok ([], VF4s.mk []) ∧
    parse_vx4s [] = .ok ([], VX4s.mk []) ∧
    parse_cv5s [] = .ok ([], CV5s.mk []) := by
  refine ⟨by decide, by decide, by decide, by decide, by decide⟩

-- ---------------------------------------------------------------------------
-- Claim C8: the palette decoder
-- ---------------------------------------------------------------------------

theorem wpeOf_take_drop (b : List Nat) (m : Nat) :
    wpeOf ((b.drop m).take 4) =
      WPE.mk ((b.get? m).getD 0) ((b.get? (m + 1)).getD 0)
        ((b.get? (m + 2)).getD 0) := by
  unfold wpeOf
  rw [List.getD_eq_getD_get?, List.getD_eq_getD_get?, List.getD_eq_getD_get?,
    List.get?_take (by omega : 0 < 4), List.get?_take (by omega : 1 < 4),
    List.get?_take (by omega : 2 < 4),
    List.get?_drop, List.get?_drop, List.get?_drop]
  have h0 : m + 0 = m := by omega
  rw [h0]

/-- Claim C8: the palette decoder succeeds exactly on buffers whose length is
a multiple of 4, producing `length / 4` entries; each entry's red, green and
blue are the first, second and third byte of its 4-byte record (`wpeOf`), and
the fourth byte of each record has no effect on the result. -/
theorem C8_palette_decoder : ∀ b : List Nat,
    ((∃ v, parse_wpes b = .ok v) ↔ b.length % 4 = 0) ∧
    (b.length % 4 = 0 →
      parse_wpes b = .ok ([], WPEs.mk (chunksN 4 wpeOf (b.length / 4) b))) ∧
    (∀ rest t, parse_wpes b = .ok (rest, t) → t.entries.length = b.length / 4) ∧
    (∀ b2 : List Nat, b2.length = b.length →
      (∀ i : Nat, i % 4 ≠ 3 → b.get? i = b2.get? i) →
      parse_wpes b = parse_wpes b2) := by
  intro b
  have h := parse_wpes_eq b
  have hdm := Nat.div_add_mod b.length 4
  refine ⟨?_, ?_, ?_, ?_⟩
  · by_cases h0 : b.length % 4 = 0 <;> simp [h, h0]
  · intro h0
    rw [h, if_pos h0]
  · intro rest t ht
    by_cases h0 : b.length % 4 = 0
    · rw [h, if_pos h0] at ht
      simp only [Except.ok.injEq, Prod.mk.injEq] at ht
      rw [← ht.2]
      exact chunksN_length 4 wpeOf (b.length / 4) b
    · rw [h, if_neg h0] at ht
      exact absurd ht (by simp)
  · intro b2 hlen hagree
    have h2 := parse_wpes_eq b2
    rw [h, h2, hlen]
    by_cases h0 : b.length % 4 = 0
    · rw [if_pos h0, if_pos h0]
      have hchunks : chunksN 4 wpeOf (b.length / 4) b =
          chunksN 4 wpeOf (b.length / 4) b2 := by
        apply List.ext_get?
        intro i
        rw [chunksN_get?, chunksN_get?]
        by_cases hi : i < b.length / 4
        · rw [if_pos hi, if_pos hi]
          rw [wpeOf_take_drop, wpeOf_take_drop]
          rw [hagree (4 * i) (by omega), hagree (4 * i + 1) (by omega),
            hagree (4 * i + 2) (by omega)]
        · rw [if_neg hi, if_neg hi]
      rw [hchunks]
    · rw [if_neg h0, if_neg h0]
      have hdrop : b.drop (4 * (b.length / 4)) = b2.drop (4 * (b.length / 4)) := by
        apply List.ext_get?
        intro m
        rw [List.get?_drop, List.get?_drop]
        by_cases hm : 4 * (b.length / 4) + m < b.length
        · exact hagree (4 * (b.length / 4) + m) (by omega)
        · rw [List.get?_eq_none.mpr (by omega), List.get?_eq_none.mpr (by omega)]
      rw [hdrop]

/-- Witness for C8: an 8-byte palette buffer decodes to its two RGB entries
regardless of the two pad bytes. -/
theorem C8_palette_decoder_witness :
    parse_wpes [1, 2, 3, 99, 4, 5, 6, 77] =
      .ok ([], WPEs.mk (chunksN 4 wpeOf (([1, 2, 3, 99, 4, 5, 6, 77] :
        List Nat).length / 4) [1, 2, 3, 99, 4, 5, 6, 77])) :=
  (C8_palette_decoder [1, 2, 3, 99, 4, 5, 6, 77]).2.1 (by decide)

-- ---------------------------------------------------------------------------
-- Claim C1: the end-to-end color resolution scenario
-- ---------------------------------------------------------------------------

/-- Claim C1: for the scenario tables (one megatile-reference group with
references [5,0,...,0], image-reference block 5 entry 0 = mirror false /
pixel-block 2, pixel-index block 2 all 7, palette entry 7 = (10,20,30)),
decoding the scenario byte buffers yields exactly those tables, and the
composed lookups for coordinate (group 0, subtile 0) return (10,20,30) at
every pixel position of the block. -/
theorem C1_end_to_end :
    parse_cv5s cv5BufC1 = .ok ([], cv5sC1) ∧
    parse_vx4s vx4BufC1 = .ok ([], vx4sC1) ∧
    parse_vr4s vr4BufC1 = .ok ([], vr4sC1) ∧
    parse_wpes wpeBufC1 = .ok ([], wpesC1) ∧
    (∀ pos : Nat, pos < 64 →
      color cv5sC1 vx4sC1 vr4sC1 wpesC1 (MegaTile.mk 0 0) pos =
        some (10, 20, 30)) := by
  refine ⟨by decide, by decide, by decide, by decide, by decide⟩

/-- Witness for C1 at pixel position 0 of the resolved block. -/
theorem C1_end_to_end_witness :
    color cv5sC1 vx4sC1 vr4sC1 wpesC1 (MegaTile.mk 0 0) 0 = some (10, 20, 30) :=
  C1_end_to_end.2.2.2.2 0 (by decide)

-- ---------------------------------------------------------------------------
-- Claim C2: out-of-range indices fail the chain, which never returns a
-- clamped or default value
-- ---------------------------------------------------------------------------

theorem get?_some_lt {α : Type} {l : List α} {n : Nat} {a : α}
    (h : l.get? n = some a) : n < l.length :=
  (List.get?_eq_some.mp h).1

/-- Claim C2: whenever an index produced along the color/flag chain (the
megatile-reference value into the image-reference or flag table, the
pixel-block index into the pixel-index table, or the palette index into the
palette) is at least the length of the table it indexes into, the path
returns `none` (the embedded out-of-range error); and whenever a path returns
a value, every index along the chain was strictly in range — it never clamps,
wraps or substitutes a default. -/
theorem C2_out_of_range_fails :
    ∀ (cv5s : CV5s) (vx4s : VX4s) (vr4s : VR4s) (wpes : WPEs) (vf4s : VF4s)
      (m : MegaTile) (pos : Nat),
    (∀ r, cv5sIndex cv5s m = some r → vx4s.blocks.length ≤ r.val →
      color cv5s vx4s vr4s wpes m pos = none) ∧
    (∀ r, cv5sIndex cv5s m = some r → vf4s.blocks.length ≤ r.val →
      flags cv5s vf4s m = none) ∧
    (∀ r blk e, cv5sIndex cv5s m = some r → vx4sIndex vx4s r = some blk →
      blk.get? m.subtile_index = some e → vr4s.blocks.length ≤ VX4.index e →
      color cv5s vx4s vr4s wpes m pos = none) ∧
    (∀ r blk e pb pi, cv5sIndex cv5s m = some r → vx4sIndex vx4s r = some blk →
      blk.get? m.subtile_index = some e → vr4sIndex vr4s e = some pb →
      pb.get? pos = some pi → wpes.entries.length ≤ pi.val →
      color cv5s vx4s vr4s wpes m pos = none) ∧
    (∀ c, color cv5s vx4s vr4s wpes m pos = some c →
      ∃ r blk e pb pi w,
        cv5sIndex cv5s m = some r ∧ r.val < vx4s.blocks.length ∧
        vx4sIndex vx4s r = some blk ∧ blk.get? m.subtile_index = some e ∧
        VX4.index e < vr4s.blocks.length ∧ vr4sIndex vr4s e = some pb ∧
        pb.get? pos = some pi ∧ pi.val < wpes.entries.length ∧
        wpesIndex wpes pi = some w ∧ c = (w.r, w.g, w.b)) ∧
    (∀ fw, flags cv5s vf4s m = some fw →
      ∃ r blk,
        cv5sIndex cv5s m = some r ∧ r.val < vf4s.blocks.length ∧
        vf4sIndex vf4s r = some blk ∧ blk.get? m.subtile_index = some fw) := by
  intro cv5s vx4s vr4s wpes vf4s m pos
  refine ⟨?_, ?_, ?_, ?_, ?_, ?_⟩
  · intro r hr hge
    have hnone : vx4sIndex vx4s r = none := List.get?_eq_none.mpr hge
    simp [color, hr, hnone]
  · intro r hr hge
    have hnone : vf4sIndex vf4s r = none := List.get?_eq_none.mpr hge
    simp [flags, hr, hnone]
  · intro r blk e hr hb he hge
    have hnone : vr4sIndex vr4s e = none := List.get?_eq_none.mpr hge
    rw [List.get?_eq_getElem?] at he
    simp [color, hr, hb, he, hnone]
  · intro r blk e pb pi hr hb he hp hpi hge
    have hnone : wpesIndex wpes pi = none := List.get?_eq_none.mpr hge
    rw [List.get?_eq_getElem?] at he
    rw [List.get?_eq_getElem?] at hpi
    simp [color, hr, hb, he, hp, hpi, hnone]
  · intro c hc
    simp only [color, Option.bind_eq_some, Option.map_eq_some'] at hc
    obtain ⟨r, hr, blk, hb, e, he, pb, hp, pi, hpi, w, hw, hrgb⟩ := hc
    exact ⟨r, blk, e, pb, pi, w, hr, get?_some_lt hb, hb, he, get?_some_lt hp,
      hp, hpi, get?_some_lt hw, hw, hrgb.symm⟩
  · intro fw hf
    simp only [flags, Option.bind_eq_some] at hf
    obtain ⟨r, hr, blk, hb, he⟩ := hf
    exact ⟨r, blk, hr, get?_some_lt hb, hb, he⟩

/-- Witness for C2: a megatile reference of 5 against an empty image-reference
table makes the color path fail. -/
theorem C2_out_of_range_fails_witness :
    color (CV5s.mk [[CV5.mk 5]]) (VX4s.mk []) (VR4s.mk []) (WPEs.mk [])
      (MegaTile.mk 0 0) 0 = none :=
  (C2_out_of_range_fails (CV5s.mk [[CV5.mk 5]]) (VX4s.mk []) (VR4s.mk [])
    (WPEs.mk []) (VF4s.mk []) (MegaTile.mk 0 0) 0).1 (CV5.mk 5) (by decide)
    (by decide)

-- ---------------------------------------------------------------------------
-- Claim C10: the flingy unit-statistics decoder
-- ---------------------------------------------------------------------------

theorem chunksN_getD {α : Type} (k : Nat) (f : List Nat → α) (d : α)
    (n : Nat) (b : List Nat) (i : Nat) (hi : i < n) :
    (chunksN k f n b).getD i d = f ((b.drop (k * i)).take k) := by
  rw [List.getD_eq_getD_get?, chunksN_get?, if_pos hi]
  rfl

theorem parse_flingy_dat_ok (b : List Nat) (h : b.length = 3135) :
    parse_flingy_dat b = .ok ([], FlingyDat.mk (flingySpec b)) := by
  have h1 := countP_ok chunk_le_u16 209 b (by omega)
  norm_num at h1
  have hl1 : (b.drop 418).length = b.length - 418 := List.length_drop ..
  have h2 := countP_ok chunk_le_u32 209 (b.drop 418) (by omega)
  simp only [List.drop_drop] at h2
  norm_num at h2
  have hl2 : (b.drop 1254).length = b.length - 1254 := List.length_drop ..
  have h3 := countP_ok chunk_le_u16 209 (b.drop 1254) (by omega)
  simp only [List.drop_drop] at h3
  norm_num at h3
  have hl3 : (b.drop 1672).length = b.length - 1672 := List.length_drop ..
  have h4 := countP_ok chunk_le_u32 209 (b.drop 1672) (by omega)
  simp only [List.drop_drop] at h4
  norm_num at h4
  have hl4 : (b.drop 2508).length = b.length - 2508 := List.length_drop ..
  have h5 := countP_ok chunk_le_u8 209 (b.drop 2508) (by omega)
  simp only [List.drop_drop] at h5
  norm_num at h5
  have hl5 : (b.drop 2717).length = b.length - 2717 := List.length_drop ..
  have h6 := countP_ok chunk_le_u8 209 (b.drop 2717) (by omega)
  simp only [List.drop_drop] at h6
  norm_num at h6
  have hl6 : (b.drop 2926).length = b.length - 2926 := List.length_drop ..
  have h7 := countP_ok chunk_le_u8 209 (b.drop 2926) (by omega)
  simp only [List.drop_drop] at h7
  norm_num at h7
  have hnil : b.drop 3135 = [] := by
    apply List.eq_nil_of_length_eq_zero
    rw [List.length_drop]
    omega
  rw [hnil] at h7
  simp only [parse_flingy_dat, FLINGY_BLOCK_SIZE, h1, h2, h3, h4, h5, h6, h7,
    all_consuming, takeB, List.isEmpty_nil]
  norm_num
  unfold flingySpec FLINGY_BLOCK_SIZE
  apply List.map_congr_left
  intro i hi
  have hi209 : i < 209 := List.mem_range.mp hi
  have gE : ∀ (k : Nat) (f : List Nat → Nat) (bb : List Nat),
      (chunksN k f 209 bb)[i]?.getD 0 = f ((bb.drop (k * i)).take k) := by
    intro k f bb
    rw [← List.getD_eq_getElem?_getD, chunksN_getD k f 0 209 bb i hi209]
  rw [gE 2 le16v b, gE 4 le32v (b.drop 418), gE 2 le16v (b.drop 1254),
    gE 4 le32v (b.drop 1672), gE 1 le8v (b.drop 2508), gE 1 le8v (b.drop 2926)]
  simp only [List.drop_drop, Nat.one_mul]

theorem parse_flingy_dat_err (b : List Nat) (h : b.length ≠ 3135) :
    ∃ e, parse_flingy_dat b = .error e := by
  by_cases c1 : b.length < 418
  · obtain ⟨e, he⟩ := countP_err chunk_le_u16 209 b (by omega)
    exact ⟨e, by simp [parse_flingy_dat, FLINGY_BLOCK_SIZE, he]⟩
  have h1 := countP_ok chunk_le_u16 209 b (by omega)
  norm_num at h1
  have hl1 : (b.drop 418).length = b.length - 418 := List.length_drop ..
  by_cases c2 : b.length < 1254
  · obtain ⟨e, he⟩ := countP_err chunk_le_u32 209 (b.drop 418) (by omega)
    exact ⟨e, by simp [parse_flingy_dat, FLINGY_BLOCK_SIZE, h1, he]⟩
  have h2 := countP_ok chunk_le_u32 209 (b.drop 418) (by omega)
  simp only [List.drop_drop] at h2
  norm_num at h2
  have hl2 : (b.drop 1254).length = b.length - 1254 := List.length_drop ..
  by_cases c3 : b.length < 1672
  · obtain ⟨e, he⟩ := countP_err chunk_le_u16 209 (b.drop 1254) (by omega)
    exact ⟨e, by simp [parse_flingy_dat, FLINGY_BLOCK_SIZE, h1, h2, he]⟩
  have h3 := countP_ok chunk_le_u16 209 (b.drop 1254) (by omega)
  simp only [List.drop_drop] at h3
  norm_num at h3
  have hl3 : (b.drop 1672).length = b.length - 1672 := List.length_drop ..
  by_cases c4 : b.length < 2508
  · obtain ⟨e, he⟩ := countP_err chunk_le_u32 209 (b.drop 1672) (by omega)
    exact ⟨e, by simp [parse_flingy_dat, FLINGY_BLOCK_SIZE, h1, h2, h3, he]⟩
  have h4 := countP_ok chunk_le_u32 209 (b.drop 1672) (by omega)
  simp only [List.drop_drop] at h4
  norm_num at h4
  have hl4 : (b.drop 2508).length = b.length - 2508 := List.length_drop ..
  by_cases c5 : b.length < 2717
  · obtain ⟨e, he⟩ := countP_err chunk_le_u8 209 (b.drop 2508) (by omega)
    exact ⟨e, by simp [parse_flingy_dat, FLINGY_BLOCK_SIZE, h1, h2, h3, h4, he]⟩
  have h5 := countP_ok chunk_le_u8 209 (b.drop 2508) (by omega)
  simp only [List.drop_drop] at h5
  norm_num at h5
  have hl5 : (b.drop 2717).length = b.length - 2717 := List.length_drop ..
  by_cases c6 : b.length < 2926
  · obtain ⟨e, he⟩ := countP_err chunk_le_u8 209 (b.drop 2717) (by omega)
    exact ⟨e, by simp [parse_flingy_dat, FLINGY_BLOCK_SIZE, h1, h2, h3, h4, h5, he]⟩
  have h6 := countP_ok chunk_le_u8 209 (b.drop 2717) (by omega)
  simp only [List.drop_drop] at h6
  norm_num at h6
  have hl6 : (b.drop 2926).length = b.length - 2926 := List.length_drop ..
  by_cases c7 : b.length < 3135
  · obtain ⟨e, he⟩ := countP_err chunk_le_u8 209 (b.drop 2926) (by omega)
    exact ⟨e, by simp [parse_flingy_dat, FLINGY_BLOCK_SIZE, h1, h2, h3, h4, h5, h6, he]⟩
  have h7 := countP_ok chunk_le_u8 209 (b.drop 2926) (by omega)
  simp only [List.drop_drop] at h7
  norm_num at h7
  have hne : b.drop 3135 ≠ [] := by
    intro hc
    have := congrArg List.length hc
    rw [List.length_drop] at this
    simp at this
    omega
  refine ⟨⟨b.drop 3135, .Eof⟩, ?_⟩
  simp only [parse_flingy_dat, FLINGY_BLOCK_SIZE, h1, h2, h3, h4, h5, h6, h7,
    all_consuming, takeB]
  simp [List.isEmpty_iff, hne]

/-- Claim C10: the flingy unit-statistics decoder succeeds exactly on buffers
of exactly 3135 bytes (7 consecutive 209-entry columns: sprite u16, top_speed
u32, acceleration u16, halt_distance u32, turn_radius u8, a discarded u8
column, move_control u8, all little-endian), producing 209 records, where
record `i` takes its field values from position `i` of each column
(`flingySpec`). -/
theorem C10_flingy_decoder : ∀ b : List Nat,
    ((∃ v, parse_flingy_dat b = .ok v) ↔ b.length = 3135) ∧
    (b.length = 3135 →
      parse_flingy_dat b = .ok ([], FlingyDat.mk (flingySpec b))) ∧
    (∀ rest d, parse_flingy_dat b = .ok (rest, d) → d.entries.length = 209) := by
  intro b
  refine ⟨⟨?_, ?_⟩, parse_flingy_dat_ok b, ?_⟩
  · rintro ⟨v, hv⟩
    by_contra hne
    obtain ⟨e, he⟩ := parse_flingy_dat_err b hne
    rw [he] at hv
    exact absurd hv (by simp)
  · intro h3135
    exact ⟨_, parse_flingy_dat_ok b h3135⟩
  · intro rest d hd
    by_cases h3135 : b.length = 3135
    · rw [parse_flingy_dat_ok b h3135] at hd
      simp only [Except.ok.injEq, Prod.mk.injEq] at hd
      rw [← hd.2]
      simp [flingySpec, FLINGY_BLOCK_SIZE]
    · obtain ⟨e, he⟩ := parse_flingy_dat_err b h3135
      rw [he] at hd
      exact absurd hd (by simp)

/-- Witness for C10: an all-zero 3135-byte buffer decodes to its 209 records. -/
theorem C10_flingy_decoder_witness :
    parse_flingy_dat (List.replicate 3135 0) =
      .ok ([], FlingyDat.mk (flingySpec (List.replicate 3135 0))) :=
  (C10_flingy_decoder (List.replicate 3135 0)).2.1 (by
    rw [List.length_replicate])

-- ---------------------------------------------------------------------------
-- Claim C4: the gamma conversion
-- ---------------------------------------------------------------------------

theorem srgb255_bounds :
    12 < ((255 : Nat) : ℝ) ^ ((1 : ℝ) / 2.2) ∧
    ((255 : Nat) : ℝ) ^ ((1 : ℝ) / 2.2) < 13 := by
  have hcast : ((255 : Nat) : ℝ) = (255 : ℝ) := by norm_num
  rw [hcast]
  have ha0 : (0 : ℝ) ≤ (255 : ℝ) ^ ((1 : ℝ) / 2.2) :=
    Real.rpow_nonneg (by norm_num) _
  have hpow : ((255 : ℝ) ^ ((1 : ℝ) / 2.2)) ^ (11 : ℕ) = (255 : ℝ) ^ (5 : ℕ) := by
    rw [← Real.rpow_natCast ((255 : ℝ) ^ ((1 : ℝ) / 2.2)) 11,
      ← Real.rpow_mul (by norm_num : (0 : ℝ) ≤ 255)]
    norm_num
  constructor
  · by_contra hle
    push_neg at hle
    have h := pow_le_pow_left ha0 hle 11
    rw [hpow] at h
    norm_num at h
  · by_contra hge
    push_neg at hge
    have h := pow_le_pow_left (by norm_num : (0 : ℝ) ≤ 13) hge 11
    rw [hpow] at h
    norm_num at h

/-- Counterexample for C4 as stated: the conversion of the raw channel 255 is
the real number 255^(1/2.2), and that value is NOT ≈ 9.97 — it is not even
within 1 of 9.97 (it lies strictly between 12 and 13). -/
theorem C4_counterexample :
    srgbSpec 255 (((255 : Nat) : ℝ) ^ ((1 : ℝ) / 2.2)) ∧
    ¬ |((255 : Nat) : ℝ) ^ ((1 : ℝ) / 2.2) - 9.97| ≤ 1 := by
  refine ⟨rfl, ?_⟩
  intro habs
  rw [abs_le] at habs
  have h12 := srgb255_bounds.1
  linarith [habs.2]

/-- Claim C4 as amended: the gamma conversion applies f(x) = x^(1/2.2)
independently to each of the three raw channel bytes, operating on the raw
0-255 byte magnitude (not a [0,1]-normalized channel) and returning
real-valued channels not re-quantized to integers; the converted value of a
raw channel of 255 is 255^(1/2.2), which lies strictly between 12 and 13
(≈ 12.41), not ≈ 9.97. -/
theorem C4_gamma_formula :
    (∀ (w : WPE) (c : ℝ × ℝ × ℝ), wpeSrgbSpec w c ↔
      (srgbSpec w.r c.1 ∧ srgbSpec w.g c.2.1 ∧ srgbSpec w.b c.2.2)) ∧
    (∀ (x : Nat) (y : ℝ), srgbSpec x y → y = (x : ℝ) ^ ((1 : ℝ) / 2.2)) ∧
    (∀ y : ℝ, srgbSpec 255 y → 12 < y ∧ y < 13) := by
  refine ⟨fun w c => Iff.rfl, fun x y hy => hy, ?_⟩
  intro y hy
  rw [srgbSpec] at hy
  rw [hy]
  exact srgb255_bounds

/-- Witness for the amended C4 at the raw channel value 255. -/
theorem C4_gamma_formula_witness :
    12 < ((255 : Nat) : ℝ) ^ ((1 : ℝ) / 2.2) ∧
    ((255 : Nat) : ℝ) ^ ((1 : ℝ) / 2.2) < 13 :=
  C4_gamma_formula.2.2 (((255 : Nat) : ℝ) ^ ((1 : ℝ) / 2.2)) rfl
